import Mathlib

/-!
Shallow embedding of `src/lib/ecosystems.ts` (snyk CLI ecosystem
orchestration) and verification of its specification claims.

External collaborators (HTTP client, plugins, output formatters, `chalk`)
are modelled as explicit function parameters; JavaScript objects become
Lean structures, JS `undefined`-able fields become `Option`, JS string
truthiness is modelled explicitly, and the string-keyed objects used as
maps become insertion-ordered association lists.
-/

namespace Ecosystems

/-- JS truthiness of an optional string: `undefined` and the empty string
are falsy, every other string is truthy. -/
def jsTruthyStr : Option String → Bool
  | none => false
  | some s => s ≠ ""

/-- JS `a || b` on optional string values. -/
def jsOrStr (a b : Option String) : Option String :=
  if jsTruthyStr a then a else b

/-- `Identity` of a scan result (`ecosystems.ts` lines 42-46). -/
structure Identity where
  type : String
  targetFile : Option String := none
  args : List (String × String) := []
deriving DecidableEq, Repr, Inhabited

/-- A typed fact attached to a scan result (`ecosystems.ts` lines 48-51);
the opaque `data: any` payload is modelled as a string. -/
structure Facts where
  type : String
  data : String := ""
deriving DecidableEq, Repr, Inhabited

/-- `GitTarget` or `ContainerTarget` (`ecosystems.ts` lines 25-32). -/
inductive Target where
  | git (remoteUrl : String) (branch : String)
  | container (image : String)
deriving DecidableEq, Repr

/-- `ScanResult` (`ecosystems.ts` lines 34-40). -/
structure ScanResult where
  identity : Identity
  facts : List Facts
  name : Option String := none
  policy : Option String := none
  target : Option Target := none
deriving DecidableEq, Repr, Inhabited

/-- An issue found by the test endpoint (`ecosystems.ts` lines 53-60). -/
structure Issue where
  pkgName : String
  pkgVersion : Option String := none
  issueId : String
  nearestFixedInVersion : Option String := none
deriving DecidableEq, Repr, Inhabited

/-- Metadata for one issue id (`ecosystems.ts` lines 62-68). -/
structure IssueData where
  id : String
  severity : String
  title : String
deriving DecidableEq, Repr, Inhabited

/-- `TestResult` returned by the test endpoint (`ecosystems.ts` lines
70-74); the dep-graph payload is opaque and modelled as a string. -/
structure TestResult where
  issues : List Issue := []
  issuesData : List (String × IssueData) := []
  depGraphData : String := ""
deriving DecidableEq, Repr, Inhabited

/-- `MonitorDependenciesResponse` (`ecosystems.ts` lines 82-92); the
opaque `licensesPolicy: any` is modelled as a string. -/
structure MonitorDependenciesResponse where
  ok : Bool := true
  org : String := ""
  id : String := ""
  isMonitored : Bool := true
  licensesPolicy : String := ""
  uri : String := ""
  trialStarted : Bool := false
  path : String := ""
  projectName : String := ""
deriving DecidableEq, Repr, Inhabited

/-- `EcosystemMonitorResult` (`ecosystems.ts` lines 94-96). -/
structure EcosystemMonitorResult extends MonitorDependenciesResponse where
  scanResult : ScanResult
deriving DecidableEq, Repr

/-- `EcosystemMonitorError` (`ecosystems.ts` lines 76-80). -/
structure EcosystemMonitorError where
  error : String
  path : String
  scanResult : ScanResult
deriving DecidableEq, Repr

/-- `MonitorDependenciesRequest` (`ecosystems.ts` lines 98-105). -/
structure MonitorDependenciesRequest where
  scanResult : ScanResult
  projectName : Option String := none
  policy : Option String := none
  method : Option String := none
deriving DecidableEq, Repr

/-- The two registered ecosystems (`ecosystems.ts` line 117). -/
inductive Ecosystem where
  | cpp
  | docker
deriving DecidableEq, Repr

/-- The options subset this module reads (`Options` plus the
`isDockerUser` extension, truthiness-checked flags as booleans;
`options['project-name']` is the `projectName` field). -/
structure Options where
  source : Bool := false
  container : Bool := false
  isDockerUser : Bool := false
  json : Bool := false
  path : String := ""
  projectName : Option String := none
deriving DecidableEq, Repr, Inhabited

/-- The configuration values this module reads (`config.API`,
`config.PROJECT_NAME`). -/
structure Config where
  API : String := ""
  PROJECT_NAME : Option String := none
deriving DecidableEq, Repr, Inhabited

/-- Ambient process state consumed when building request payloads:
`isCI()` and the `snyk.api` token, plus the configuration. -/
structure Env where
  isCI : Bool := false
  api : String := ""
  config : Config := {}
deriving DecidableEq, Repr, Inhabited

/-- `getEcosystem` (`ecosystems.ts` lines 130-141): source scans select
`cpp`; container scans select `docker` unless the caller is a Docker
Desktop user; otherwise no ecosystem. -/
def getEcosystem (options : Options) : Option Ecosystem :=
  if options.source then
    some .cpp
  else if options.container && !options.isDockerUser then
    some .docker
  else
    none

/-- `generateMonitorDependenciesRequest` (`ecosystems.ts` lines 230-239):
fixed `method: 'cli'`, and project name
`options['project-name'] || config.PROJECT_NAME || undefined`. -/
def generateMonitorDependenciesRequest (scanResult : ScanResult)
    (options : Options) (config : Config) : MonitorDependenciesRequest :=
  { scanResult := scanResult
    method := some "cli"
    projectName := jsOrStr (jsOrStr options.projectName config.PROJECT_NAME) none }

/-- C4: if `source` is set, ecosystem selection returns `cpp` regardless of
the container flags; if `source` is unset, `container` true and
`isDockerUser` false it returns `docker`; in every other case it returns
no ecosystem. -/
theorem getEcosystem_selection (o : Options) :
    (o.source = true → getEcosystem o = some Ecosystem.cpp) ∧
    (o.source = false → o.container = true → o.isDockerUser = false →
      getEcosystem o = some Ecosystem.docker) ∧
    (o.source = false → (o.container = false ∨ o.isDockerUser = true) →
      getEcosystem o = none) := by
  refine ⟨fun hs => ?_, fun hs hc hd => ?_, fun hs hcd => ?_⟩
  · simp [getEcosystem, hs]
  · simp [getEcosystem, hs, hc, hd]
  · rcases hcd with hc | hd
    · simp [getEcosystem, hs, hc]
    · simp [getEcosystem, hs, hd]

/-- Witness for C4: evaluates the selection on the three concrete cases. -/
theorem getEcosystem_selection_witness :
    getEcosystem { source := true, container := true, isDockerUser := true } =
      some Ecosystem.cpp ∧
    getEcosystem { container := true } = some Ecosystem.docker ∧
    getEcosystem { container := true, isDockerUser := true } = none :=
  ⟨(getEcosystem_selection _).1 rfl,
   (getEcosystem_selection _).2.1 rfl rfl rfl,
   (getEcosystem_selection _).2.2 rfl (Or.inr rfl)⟩

/-- C8: every monitor request carries the fixed method tag `cli`, and its
project name is resolved by precedence: the per-invocation
`project-name` option when set (JS-truthy: present and non-empty), else
the configured `PROJECT_NAME` when set, else absent. -/
theorem monitor_request_method_and_project_name (sr : ScanResult)
    (options : Options) (config : Config) :
    (generateMonitorDependenciesRequest sr options config).method = some "cli" ∧
    (jsTruthyStr options.projectName = true →
      (generateMonitorDependenciesRequest sr options config).projectName =
        options.projectName) ∧
    (jsTruthyStr options.projectName = false →
      jsTruthyStr config.PROJECT_NAME = true →
      (generateMonitorDependenciesRequest sr options config).projectName =
        config.PROJECT_NAME) ∧
    (jsTruthyStr options.projectName = false →
      jsTruthyStr config.PROJECT_NAME = false →
      (generateMonitorDependenciesRequest sr options config).projectName =
        none) := by
  refine ⟨rfl, fun h1 => ?_, fun h1 h2 => ?_, fun h1 h2 => ?_⟩
  · simp [generateMonitorDependenciesRequest, jsOrStr, h1]
  · simp [generateMonitorDependenciesRequest, jsOrStr, h1, h2]
  · simp [generateMonitorDependenciesRequest, jsOrStr, h1, h2]

/-- Witness for C8: a set option wins, an unset option falls back to the
configured name, and with neither the project name is absent. -/
theorem monitor_request_method_and_project_name_witness :
    ((generateMonitorDependenciesRequest default
        { projectName := some "p" } { PROJECT_NAME := some "q" }).projectName =
      some "p") ∧
    ((generateMonitorDependenciesRequest default
        {} { PROJECT_NAME := some "q" }).projectName = some "q") ∧
    ((generateMonitorDependenciesRequest default {} {}).projectName = none) :=
  ⟨(monitor_request_method_and_project_name default _ _).2.1 (by decide),
   (monitor_request_method_and_project_name default _ _).2.2.1 (by decide) (by decide),
   (monitor_request_method_and_project_name default _ _).2.2.2 (by decide) (by decide)⟩

/-- `PluginResponse` (`ecosystems.ts` lines 21-23). -/
structure PluginResponse where
  scanResults : List ScanResult
deriving DecidableEq, Repr, Inhabited

/-- The assignment `obj[key] = value` on a string-keyed JS object held as
an insertion-ordered association list: an existing key is updated in
place, a new key is appended. -/
def objSet {α : Type} : List (String × α) → String → α → List (String × α)
  | [], k, v => [(k, v)]
  | (k', v') :: rest, k, v =>
    if k' = k then (k, v) :: rest else (k', v') :: objSet rest k v

/-- The scan loop of `testEcosystem` (`ecosystems.ts` lines 149-154): per
path, mutate `options.path`, call `plugin.scan`, and store the scan
results under the path key. Returns the options value passed to each
scan call, the final options, and the `scanResultsByPath` object. -/
def scanLoop (scan : Options → PluginResponse) :
    List String → Options → List (String × List ScanResult) →
    List Options × Options × List (String × List ScanResult)
  | [], options, acc => ([], options, acc)
  | path :: rest, options, acc =>
    let options' := { options with path := path }
    let pluginResponse := scan options'
    let r := scanLoop scan rest options' (objSet acc path pluginResponse.scanResults)
    (options' :: r.1, r.2)

/-- The scan loop of `monitorEcosystem` (`ecosystems.ts` lines 217-222):
identical to the `testEcosystem` loop except that a progress-indicator
label is shown before each scan (the indicator does not affect the
computed state, so it is not part of the returned value). -/
def monitorScanLoop (scan : Options → PluginResponse) :
    List String → Options → List (String × List ScanResult) →
    List Options × Options × List (String × List ScanResult)
  | [], options, acc => ([], options, acc)
  | path :: rest, options, acc =>
    let options' := { options with path := path }
    let pluginResponse := scan options'
    let r := monitorScanLoop scan rest options' (objSet acc path pluginResponse.scanResults)
    (options' :: r.1, r.2)

theorem monitorScanLoop_eq_scanLoop (scan : Options → PluginResponse) :
    ∀ (paths : List String) (options : Options)
      (acc : List (String × List ScanResult)),
      monitorScanLoop scan paths options acc = scanLoop scan paths options acc := by
  intro paths
  induction paths with
  | nil => intro options acc; rfl
  | cons p rest ih =>
      intro options acc
      simp [monitorScanLoop, scanLoop, ih]

theorem objSet_of_not_mem {α : Type} (m : List (String × α)) (k : String)
    (v : α) (h : k ∉ m.map Prod.fst) : objSet m k v = m ++ [(k, v)] := by
  induction m with
  | nil => rfl
  | cons hd tl ih =>
      simp only [List.map_cons, List.mem_cons] at h
      push_neg at h
      simp [objSet, Ne.symm h.1, ih h.2]

theorem scanLoop_calls (scan : Options → PluginResponse) :
    ∀ (paths : List String) (options : Options)
      (acc : List (String × List ScanResult)),
      (scanLoop scan paths options acc).1 =
        paths.map (fun p => { options with path := p }) := by
  intro paths
  induction paths with
  | nil => intro options acc; rfl
  | cons p rest ih =>
      intro options acc
      simp [scanLoop, ih]

theorem scanLoop_keys (scan : Options → PluginResponse) :
    ∀ (paths : List String) (options : Options)
      (acc : List (String × List ScanResult)),
      paths.Nodup → (∀ p ∈ paths, p ∉ acc.map Prod.fst) →
      (scanLoop scan paths options acc).2.2.map Prod.fst =
        acc.map Prod.fst ++ paths := by
  intro paths
  induction paths with
  | nil => intro options acc _ _; simp [scanLoop]
  | cons p rest ih =>
      intro options acc hnd hfresh
      have hp : p ∉ acc.map Prod.fst := hfresh p (List.mem_cons_self p rest)
      have hset := objSet_of_not_mem acc p
        ((scan { options with path := p }).scanResults) hp
      have hnd' : rest.Nodup := (List.nodup_cons.mp hnd).2
      have hpn : p ∉ rest := (List.nodup_cons.mp hnd).1
      have hfresh' : ∀ q ∈ rest,
          q ∉ (objSet acc p ((scan { options with path := p }).scanResults)).map
            Prod.fst := by
        intro q hq
        rw [hset]
        simp only [List.map_append, List.mem_append, List.map_cons,
          List.map_nil, List.mem_singleton]
        rintro (hqa | hqp)
        · exact hfresh q (List.mem_cons_of_mem _ hq) hqa
        · exact hpn (hqp ▸ hq)
      have := ih { options with path := p }
        (objSet acc p ((scan { options with path := p }).scanResults)) hnd' hfresh'
      simp only [scanLoop]
      rw [this, hset]
      simp

/-- C5 counterexample: with the duplicated path list `["a", "a"]` the
plugin is invoked twice but the scan-results-by-path object ends up with
a single key, so the aggregate map does not have exactly N keys. -/
theorem scan_phase_duplicate_paths_counterexample :
    (scanLoop (fun _ => { scanResults := [] }) ["a", "a"] {} []).1.length = 2 ∧
    (["a", "a"] : List String).length = 2 ∧
    ¬((scanLoop (fun _ => { scanResults := [] }) ["a", "a"] {} []).2.2.length = 2) := by
  refine ⟨rfl, rfl, ?_⟩
  decide

/-- C5 (amended): for every list of N pairwise-distinct input paths, the
scan phase of `testEcosystem` and of `monitorEcosystem` invokes the
plugin's scan operation exactly N times, once per path in input order
with `options.path` set to the current path, and the resulting
scan-results-by-path map has exactly N keys, the paths themselves in
order. (A duplicated path collapses onto one key, so distinctness is
required for the key count.) -/
theorem scan_phase_calls_and_keys (scan : Options → PluginResponse)
    (paths : List String) (options : Options) (hnd : paths.Nodup) :
    ((scanLoop scan paths options []).1 =
        paths.map (fun p => { options with path := p }) ∧
      (scanLoop scan paths options []).1.length = paths.length ∧
      (scanLoop scan paths options []).2.2.map Prod.fst = paths ∧
      (scanLoop scan paths options []).2.2.length = paths.length) ∧
    ((monitorScanLoop scan paths options []).1 =
        paths.map (fun p => { options with path := p }) ∧
      (monitorScanLoop scan paths options []).1.length = paths.length ∧
      (monitorScanLoop scan paths options []).2.2.map Prod.fst = paths ∧
      (monitorScanLoop scan paths options []).2.2.length = paths.length) := by
  have hkeys := scanLoop_keys scan paths options [] hnd (by simp)
  simp only [List.map_nil, List.nil_append] at hkeys
  have hcalls := scanLoop_calls scan paths options []
  have hklen : (scanLoop scan paths options []).2.2.length = paths.length := by
    have := congrArg List.length hkeys
    simpa using this
  refine ⟨⟨hcalls, by simp [hcalls], hkeys, hklen⟩, ?_⟩
  rw [monitorScanLoop_eq_scanLoop]
  exact ⟨hcalls, by simp [hcalls], hkeys, hklen⟩

/-- Witness for C5 (amended): two distinct paths give two scan calls in
order and a two-key map. -/
theorem scan_phase_calls_and_keys_witness :
    (["a", "b"] : List String).Nodup ∧
    ((scanLoop (fun _ => { scanResults := [] }) ["a", "b"] {} []).1 =
        [{ path := "a" }, { path := "b" }] ∧
      (scanLoop (fun _ => { scanResults := [] }) ["a", "b"] {} []).1.length = 2 ∧
      (scanLoop (fun _ => { scanResults := [] }) ["a", "b"] {} []).2.2.map
          Prod.fst = ["a", "b"] ∧
      (scanLoop (fun _ => { scanResults := [] }) ["a", "b"] {} []).2.2.length = 2) ∧
    ((monitorScanLoop (fun _ => { scanResults := [] }) ["a", "b"] {} []).1 =
        [{ path := "a" }, { path := "b" }] ∧
      (monitorScanLoop (fun _ => { scanResults := [] }) ["a", "b"] {} []).1.length = 2 ∧
      (monitorScanLoop (fun _ => { scanResults := [] }) ["a", "b"] {} []).2.2.map
          Prod.fst = ["a", "b"] ∧
      (monitorScanLoop (fun _ => { scanResults := [] }) ["a", "b"] {} []).2.2.length = 2) :=
  ⟨by decide,
   scan_phase_calls_and_keys (fun _ => { scanResults := [] }) ["a", "b"] {}
     (by decide)⟩

/-- Outcome of one remote call as observed by the caller of
`makeRequest`: a parsed response, or a rejection carrying an optional
numeric `code` and a `message` (a network failure has no code). -/
inductive ReqOutcome (α : Type) where
  | ok (response : α)
  | err (code : Option Int) (message : String)
deriving DecidableEq, Repr

/-- The test `error.code >= 400 && error.code < 500` (`ecosystems.ts`
lines 199, 281); comparison with an absent code is falsy in JS. -/
def is4xx : Option Int → Bool
  | none => false
  | some c => 400 ≤ c && c < 500

/-- Whether an outcome takes the fatal re-throw branch of the catch
handlers: an error whose code is in the 4xx class. -/
def fatalOut {α : Type} : ReqOutcome α → Bool
  | .ok _ => false
  | .err code _ => is4xx code

/-- The request payload built for one test submission (`ecosystems.ts`
lines 183-194). -/
structure TestPayload where
  method : String
  url : String
  json : Bool
  xIsCI : Bool
  authorization : String
  body : ScanResult
deriving DecidableEq, Repr

/-- Builds the payload of `testDependencies` for one scan result
(`ecosystems.ts` lines 183-194): POST to `/test-dependencies` with the
scan result spread into the body. -/
def testPayloadOf (env : Env) (scanResult : ScanResult) : TestPayload :=
  { method := "POST"
    url := env.config.API ++ "/test-dependencies"
    json := true
    xIsCI := env.isCI
    authorization := "token " ++ env.api
    body := scanResult }

/-- Accumulated state of the `testDependencies` loops: payloads sent,
collected results and error strings, the index of the next remote call,
and the pending thrown error message, if any. -/
structure TestStep where
  submitted : List TestPayload := []
  results : List TestResult := []
  errors : List String := []
  nextCall : Nat := 0
  thrown : Option String := none
deriving DecidableEq, Repr

/-- The body of the inner `for (const scanResult of scanResults)` loop of
`testDependencies` (`ecosystems.ts` lines 182-204), iterated over one
path's scan results: submit each, push the response on success, re-throw
4xx errors, record a path-keyed error string otherwise. The `net`
oracle gives the outcome of the k-th remote call of the run. -/
def testDepsInner (env : Env) (net : Nat → ReqOutcome TestResult)
    (path : String) : List ScanResult → Nat → TestStep
  | [], k => { nextCall := k }
  | scanResult :: rest, k =>
    let payload := testPayloadOf env scanResult
    match net k with
    | .ok response =>
      let r := testDepsInner env net path rest (k + 1)
      { r with submitted := payload :: r.submitted, results := response :: r.results }
    | .err code message =>
      if is4xx code then
        { submitted := [payload], nextCall := k + 1, thrown := some message }
      else
        let r := testDepsInner env net path rest (k + 1)
        { r with submitted := payload :: r.submitted
                 errors := ("Could not test dependencies in " ++ path) :: r.errors }

/-- The outer `for (const [path, scanResults] of Object.entries(scans))`
loop of `testDependencies` (`ecosystems.ts` lines 180-205): a thrown
error aborts the remaining entries. -/
def testDepsOuter (env : Env) (net : Nat → ReqOutcome TestResult) :
    List (String × List ScanResult) → Nat → TestStep
  | [], k => { nextCall := k }
  | (path, scanResults) :: rest, k =>
    let r := testDepsInner env net path scanResults k
    match r.thrown with
    | some _ => r
    | none =>
      let r2 := testDepsOuter env net rest r.nextCall
      { submitted := r.submitted ++ r2.submitted
        results := r.results ++ r2.results
        errors := r.errors ++ r2.errors
        nextCall := r2.nextCall
        thrown := r2.thrown }

/-- Observable outcome of a `testDependencies` run: what was submitted,
the returned `[results, errors]`, the thrown message (if the run threw
instead of returning), and whether `spinner.clearAll()` ran. -/
structure TestDepsRun where
  submitted : List TestPayload
  results : List TestResult
  errors : List String
  thrown : Option String
  spinnerCleared : Bool
deriving DecidableEq, Repr

/-- `testDependencies` (`ecosystems.ts` lines 175-208). The
`spinner.clearAll()` on line 206 sits after the loops with no
try/finally, so it runs exactly when the loops finish without throwing;
a 4xx re-throw propagates past it. -/
def testDependencies (env : Env) (net : Nat → ReqOutcome TestResult)
    (scans : List (String × List ScanResult)) : TestDepsRun :=
  let r := testDepsOuter env net scans 0
  match r.thrown with
  | some m =>
    { submitted := r.submitted, results := r.results, errors := r.errors
      thrown := some m, spinnerCleared := false }
  | none =>
    { submitted := r.submitted, results := r.results, errors := r.errors
      thrown := none, spinnerCleared := true }

/-- One remote call per (path, scan result) pair, flattened in
submission order. -/
def flattenEntries {α : Type} (scans : List (String × List α)) :
    List (String × α) :=
  (scans.map (fun pr => pr.2.map (fun x => (pr.1, x)))).flatten

/-- The flattened submission sequence: `testDependencies` restated as a
single loop over (path, scan result) pairs in submission order. -/
def testRunFlat (env : Env) (net : Nat → ReqOutcome TestResult) :
    List (String × ScanResult) → Nat → TestStep
  | [], k => { nextCall := k }
  | (path, scanResult) :: rest, k =>
    let payload := testPayloadOf env scanResult
    match net k with
    | .ok response =>
      let r := testRunFlat env net rest (k + 1)
      { r with submitted := payload :: r.submitted, results := response :: r.results }
    | .err code message =>
      if is4xx code then
        { submitted := [payload], nextCall := k + 1, thrown := some message }
      else
        let r := testRunFlat env net rest (k + 1)
        { r with submitted := payload :: r.submitted
                 errors := ("Could not test dependencies in " ++ path) :: r.errors }

/-- The test responses of the successful calls, in call order: one entry
per `.ok` outcome in the window of the pair list. -/
def successesT (net : Nat → ReqOutcome TestResult) :
    List (String × ScanResult) → Nat → List TestResult
  | [], _ => []
  | _ :: rest, k =>
    match net k with
    | .ok response => response :: successesT net rest (k + 1)
    | .err _ _ => successesT net rest (k + 1)

/-- The path-keyed error strings of the failing calls, in call order: one
entry per `.err` outcome in the window of the pair list. -/
def softErrorsT (net : Nat → ReqOutcome TestResult) :
    List (String × ScanResult) → Nat → List String
  | [], _ => []
  | (path, _) :: rest, k =>
    match net k with
    | .ok _ => softErrorsT net rest (k + 1)
    | .err _ _ => ("Could not test dependencies in " ++ path) :: softErrorsT net rest (k + 1)

theorem testDepsInner_eq_flat (env : Env) (net : Nat → ReqOutcome TestResult)
    (path : String) : ∀ (scanResults : List ScanResult) (k : Nat),
    testDepsInner env net path scanResults k =
      testRunFlat env net (scanResults.map (fun sr => (path, sr))) k := by
  intro scanResults
  induction scanResults with
  | nil => intro k; rfl
  | cons sr rest ih =>
      intro k
      cases hnk : net k with
      | ok response => simp [testDepsInner, testRunFlat, hnk, ih]
      | err code message =>
          by_cases h4 : is4xx code = true
          · simp [testDepsInner, testRunFlat, hnk, h4]
          · simp only [Bool.not_eq_true] at h4
            simp [testDepsInner, testRunFlat, hnk, h4, ih]

theorem testRunFlat_append (env : Env) (net : Nat → ReqOutcome TestResult) :
    ∀ (ps qs : List (String × ScanResult)) (k : Nat),
    testRunFlat env net (ps ++ qs) k =
      (let r := testRunFlat env net ps k
       match r.thrown with
       | some _ => r
       | none =>
         let r2 := testRunFlat env net qs r.nextCall
         { submitted := r.submitted ++ r2.submitted
           results := r.results ++ r2.results
           errors := r.errors ++ r2.errors
           nextCall := r2.nextCall
           thrown := r2.thrown }) := by
  intro ps
  induction ps with
  | nil => intro qs k; simp [testRunFlat]
  | cons pr rest ih =>
      intro qs k
      obtain ⟨path, scanResult⟩ := pr
      cases hnk : net k with
      | ok response =>
          have happ := ih qs (k + 1)
          simp only [List.cons_append, List.append_eq, testRunFlat, hnk]
          rw [happ]
          cases ht : (testRunFlat env net rest (k + 1)).thrown <;> simp [ht]
      | err code message =>
          by_cases h4 : is4xx code = true
          · simp [testRunFlat, hnk, h4]
          · simp only [Bool.not_eq_true] at h4
            have happ := ih qs (k + 1)
            simp only [List.cons_append, List.append_eq, testRunFlat, hnk, h4,
              Bool.false_eq_true, if_false]
            rw [happ]
            cases ht : (testRunFlat env net rest (k + 1)).thrown <;> simp [ht]

theorem testDepsOuter_eq_flat (env : Env) (net : Nat → ReqOutcome TestResult) :
    ∀ (scans : List (String × List ScanResult)) (k : Nat),
    testDepsOuter env net scans k =
      testRunFlat env net (flattenEntries scans) k := by
  intro scans
  induction scans with
  | nil => intro k; rfl
  | cons pr rest ih =>
      intro k
      obtain ⟨path, scanResults⟩ := pr
      have hflat : flattenEntries ((path, scanResults) :: rest) =
          scanResults.map (fun sr => (path, sr)) ++ flattenEntries rest := by
        simp [flattenEntries]
      rw [hflat, testRunFlat_append]
      simp only [testDepsOuter, testDepsInner_eq_flat, ih]

theorem testRunFlat_nofatal (env : Env) (net : Nat → ReqOutcome TestResult) :
    ∀ (ps : List (String × ScanResult)) (k : Nat),
    (∀ j, j < ps.length → fatalOut (net (k + j)) = false) →
    testRunFlat env net ps k =
      { submitted := ps.map (fun pr => testPayloadOf env pr.2)
        results := successesT net ps k
        errors := softErrorsT net ps k
        nextCall := k + ps.length
        thrown := none } := by
  intro ps
  induction ps with
  | nil => intro k _; simp [testRunFlat, successesT, softErrorsT]
  | cons pr rest ih =>
      intro k h
      obtain ⟨path, scanResult⟩ := pr
      have h0 : fatalOut (net k) = false := by
        have := h 0 (by simp)
        simpa using this
      have h' : ∀ j, j < rest.length → fatalOut (net (k + 1 + j)) = false := by
        intro j hj
        have := h (j + 1) (by simpa using Nat.succ_lt_succ hj)
        simpa [Nat.add_assoc, Nat.add_comm 1 j] using this
      cases hnk : net k with
      | ok response =>
          simp [testRunFlat, successesT, softErrorsT, hnk, ih _ h',
            Nat.add_assoc, Nat.add_comm 1 rest.length]
      | err code message =>
          have h4 : is4xx code = false := by
            rw [hnk] at h0; simpa [fatalOut] using h0
          simp [testRunFlat, successesT, softErrorsT, hnk, h4, ih _ h',
            Nat.add_assoc, Nat.add_comm 1 rest.length]

theorem testRunFlat_fatal (env : Env) (net : Nat → ReqOutcome TestResult) :
    ∀ (ps : List (String × ScanResult)) (k i : Nat) (c : Option Int) (m : String),
    i < ps.length → net (k + i) = .err c m → is4xx c = true →
    (∀ j, j < i → fatalOut (net (k + j)) = false) →
    testRunFlat env net ps k =
      { submitted := (ps.take (i + 1)).map (fun pr => testPayloadOf env pr.2)
        results := successesT net (ps.take i) k
        errors := softErrorsT net (ps.take i) k
        nextCall := k + i + 1
        thrown := some m } := by
  intro ps
  induction ps with
  | nil => intro k i c m hi; exact absurd hi (by simp)
  | cons pr rest ih =>
      intro k i c m hi hki h4 hb
      obtain ⟨path, scanResult⟩ := pr
      cases i with
      | zero =>
          simp only [Nat.add_zero] at hki
          simp [testRunFlat, successesT, softErrorsT, hki, h4]
      | succ i' =>
          have h0 : fatalOut (net k) = false := by
            have := hb 0 (Nat.succ_pos i')
            simpa using this
          have hki' : net (k + 1 + i') = .err c m := by
            rw [show k + 1 + i' = k + (i' + 1) by omega]
            exact hki
          have hb' : ∀ j, j < i' → fatalOut (net (k + 1 + j)) = false := by
            intro j hj
            have := hb (j + 1) (Nat.succ_lt_succ hj)
            simpa [show k + (j + 1) = k + 1 + j by omega] using this
          have hi' : i' < rest.length := by simpa using Nat.lt_of_succ_lt_succ hi
          cases hnk : net k with
          | ok response =>
              simp [testRunFlat, successesT, softErrorsT, hnk,
                ih (k + 1) i' c m hi' hki' h4 hb',
                show k + 1 + i' + 1 = k + (i' + 1) + 1 by omega]
          | err code message =>
              have h4' : is4xx code = false := by
                rw [hnk] at h0; simpa [fatalOut] using h0
              simp [testRunFlat, successesT, softErrorsT, hnk, h4',
                ih (k + 1) i' c m hi' hki' h4 hb',
                show k + 1 + i' + 1 = k + (i' + 1) + 1 by omega]

/-- The fact filtering applied to a scan result before its monitor
submission (`ecosystems.ts` lines 257-259): drop every fact whose type
is `imageOsReleasePrettyName`, keep all others in order. -/
def filterScanFacts (scanResult : ScanResult) : ScanResult :=
  { scanResult with
    facts := scanResult.facts.filter (fun fact => fact.type != "imageOsReleasePrettyName") }

/-- The request payload built for one monitor submission
(`ecosystems.ts` lines 261-270). -/
structure MonitorPayload where
  method : String
  url : String
  json : Bool
  xIsCI : Bool
  authorization : String
  body : MonitorDependenciesRequest
deriving DecidableEq, Repr

/-- Accumulated state of the `monitorDependencies` loops. -/
structure MonitorStep where
  submitted : List MonitorPayload := []
  results : List EcosystemMonitorResult := []
  errors : List EcosystemMonitorError := []
  nextCall : Nat := 0
  thrown : Option String := none
deriving DecidableEq, Repr

/-- The body of the inner `for (const scanResult of scanResults)` loop of
`monitorDependencies` (`ecosystems.ts` lines 251-290): build the request,
reassign the shared scan result's facts to the filtered list (the
rebinding of `scanResult` models the in-place mutation as seen by the
loop variable), PUT the request, push the response merged with path and
scan result on success, re-throw 4xx errors, record a structured error
entry otherwise. -/
def monitorDepsInner (env : Env) (options : Options)
    (net : Nat → ReqOutcome MonitorDependenciesResponse)
    (path : String) : List ScanResult → Nat → MonitorStep
  | [], k => { nextCall := k }
  | scanResult :: rest, k =>
    let monitorDependenciesRequest :=
      generateMonitorDependenciesRequest scanResult options env.config
    let monitorDependenciesRequest :=
      { monitorDependenciesRequest with
        scanResult := filterScanFacts monitorDependenciesRequest.scanResult }
    let scanResult := monitorDependenciesRequest.scanResult
    let payload : MonitorPayload :=
      { method := "PUT"
        url := env.config.API ++ "/monitor-dependencies"
        json := true
        xIsCI := env.isCI
        authorization := "token " ++ env.api
        body := monitorDependenciesRequest }
    match net k with
    | .ok response =>
      let r := monitorDepsInner env options net path rest (k + 1)
      { r with submitted := payload :: r.submitted
               results :=
                 { toMonitorDependenciesResponse := { response with path := path }
                   scanResult := scanResult } :: r.results }
    | .err code message =>
      if is4xx code then
        { submitted := [payload], nextCall := k + 1, thrown := some message }
      else
        let r := monitorDepsInner env options net path rest (k + 1)
        { r with submitted := payload :: r.submitted
                 errors :=
                   { error := "Could not monitor dependencies in " ++ path
                     path := path
                     scanResult := scanResult } :: r.errors }

/-- The outer `for (const [path, scanResults] of Object.entries(scans))`
loop of `monitorDependencies` (`ecosystems.ts` lines 249-291). -/
def monitorDepsOuter (env : Env) (options : Options)
    (net : Nat → ReqOutcome MonitorDependenciesResponse) :
    List (String × List ScanResult) → Nat → MonitorStep
  | [], k => { nextCall := k }
  | (path, scanResults) :: rest, k =>
    let r := monitorDepsInner env options net path scanResults k
    match r.thrown with
    | some _ => r
    | none =>
      let r2 := monitorDepsOuter env options net rest r.nextCall
      { submitted := r.submitted ++ r2.submitted
        results := r.results ++ r2.results
        errors := r.errors ++ r2.errors
        nextCall := r2.nextCall
        thrown := r2.thrown }

/-- Observable outcome of a `monitorDependencies` run. -/
structure MonitorDepsRun where
  submitted : List MonitorPayload
  results : List EcosystemMonitorResult
  errors : List EcosystemMonitorError
  thrown : Option String
  spinnerCleared : Bool
deriving DecidableEq, Repr

/-- `monitorDependencies` (`ecosystems.ts` lines 241-294). The
`spinner.clearAll()` on line 292 sits after the loops with no
try/finally, so it runs exactly when the loops finish without throwing;
a 4xx re-throw propagates past it. -/
def monitorDependencies (env : Env) (options : Options)
    (net : Nat → ReqOutcome MonitorDependenciesResponse)
    (scans : List (String × List ScanResult)) : MonitorDepsRun :=
  let r := monitorDepsOuter env options net scans 0
  match r.thrown with
  | some m =>
    { submitted := r.submitted, results := r.results, errors := r.errors
      thrown := some m, spinnerCleared := false }
  | none =>
    { submitted := r.submitted, results := r.results, errors := r.errors
      thrown := none, spinnerCleared := true }

/-- The payload `monitorDependencies` submits for a given (path, scan
result) pair: the generated request with the scan result's facts
filtered. -/
def monPayloadOf (env : Env) (options : Options)
    (pr : String × ScanResult) : MonitorPayload :=
  { method := "PUT"
    url := env.config.API ++ "/monitor-dependencies"
    json := true
    xIsCI := env.isCI
    authorization := "token " ++ env.api
    body := { generateMonitorDependenciesRequest pr.2 options env.config with
              scanResult := filterScanFacts pr.2 } }

/-- The flattened submission sequence: `monitorDependencies` restated as
a single loop over (path, scan result) pairs in submission order. -/
def monitorRunFlat (env : Env) (options : Options)
    (net : Nat → ReqOutcome MonitorDependenciesResponse) :
    List (String × ScanResult) → Nat → MonitorStep
  | [], k => { nextCall := k }
  | (path, scanResult) :: rest, k =>
    let payload := monPayloadOf env options (path, scanResult)
    match net k with
    | .ok response =>
      let r := monitorRunFlat env options net rest (k + 1)
      { r with submitted := payload :: r.submitted
               results :=
                 { toMonitorDependenciesResponse := { response with path := path }
                   scanResult := filterScanFacts scanResult } :: r.results }
    | .err code message =>
      if is4xx code then
        { submitted := [payload], nextCall := k + 1, thrown := some message }
      else
        let r := monitorRunFlat env options net rest (k + 1)
        { r with submitted := payload :: r.submitted
                 errors :=
                   { error := "Could not monitor dependencies in " ++ path
                     path := path
                     scanResult := filterScanFacts scanResult } :: r.errors }

/-- The monitor results of the successful calls, in call order: the
server response merged with the loop path and the filtered scan result,
one entry per `.ok` outcome in the window of the pair list. -/
def successesM (net : Nat → ReqOutcome MonitorDependenciesResponse) :
    List (String × ScanResult) → Nat → List EcosystemMonitorResult
  | [], _ => []
  | (path, scanResult) :: rest, k =>
    match net k with
    | .ok response =>
      { toMonitorDependenciesResponse := { response with path := path }
        scanResult := filterScanFacts scanResult } :: successesM net rest (k + 1)
    | .err _ _ => successesM net rest (k + 1)

/-- The structured monitor errors of the failing calls, in call order:
one path-and-scan-result-keyed entry per `.err` outcome in the window of
the pair list. -/
def softErrorsM (net : Nat → ReqOutcome MonitorDependenciesResponse) :
    List (String × ScanResult) → Nat → List EcosystemMonitorError
  | [], _ => []
  | (path, scanResult) :: rest, k =>
    match net k with
    | .ok _ => softErrorsM net rest (k + 1)
    | .err _ _ =>
      { error := "Could not monitor dependencies in " ++ path
        path := path
        scanResult := filterScanFacts scanResult } :: softErrorsM net rest (k + 1)

theorem monitorDepsInner_eq_flat (env : Env) (options : Options)
    (net : Nat → ReqOutcome MonitorDependenciesResponse) (path : String) :
    ∀ (scanResults : List ScanResult) (k : Nat),
    monitorDepsInner env options net path scanResults k =
      monitorRunFlat env options net (scanResults.map (fun sr => (path, sr))) k := by
  intro scanResults
  induction scanResults with
  | nil => intro k; rfl
  | cons sr rest ih =>
      intro k
      cases hnk : net k with
      | ok response =>
          simp [monitorDepsInner, monitorRunFlat, hnk, ih, monPayloadOf,
            generateMonitorDependenciesRequest]
      | err code message =>
          by_cases h4 : is4xx code = true
          · simp [monitorDepsInner, monitorRunFlat, hnk, h4, monPayloadOf,
              generateMonitorDependenciesRequest]
          · simp only [Bool.not_eq_true] at h4
            simp [monitorDepsInner, monitorRunFlat, hnk, h4, ih, monPayloadOf,
              generateMonitorDependenciesRequest]

theorem monitorRunFlat_append (env : Env) (options : Options)
    (net : Nat → ReqOutcome MonitorDependenciesResponse) :
    ∀ (ps qs : List (String × ScanResult)) (k : Nat),
    monitorRunFlat env options net (ps ++ qs) k =
      (let r := monitorRunFlat env options net ps k
       match r.thrown with
       | some _ => r
       | none =>
         let r2 := monitorRunFlat env options net qs r.nextCall
         { submitted := r.submitted ++ r2.submitted
           results := r.results ++ r2.results
           errors := r.errors ++ r2.errors
           nextCall := r2.nextCall
           thrown := r2.thrown }) := by
  intro ps
  induction ps with
  | nil => intro qs k; simp [monitorRunFlat]
  | cons pr rest ih =>
      intro qs k
      obtain ⟨path, scanResult⟩ := pr
      cases hnk : net k with
      | ok response =>
          have happ := ih qs (k + 1)
          simp only [List.cons_append, List.append_eq, monitorRunFlat, hnk]
          rw [happ]
          cases ht : (monitorRunFlat env options net rest (k + 1)).thrown <;> simp [ht]
      | err code message =>
          by_cases h4 : is4xx code = true
          · simp [monitorRunFlat, hnk, h4]
          · simp only [Bool.not_eq_true] at h4
            have happ := ih qs (k + 1)
            simp only [List.cons_append, List.append_eq, monitorRunFlat, hnk, h4,
              Bool.false_eq_true, if_false]
            rw [happ]
            cases ht : (monitorRunFlat env options net rest (k + 1)).thrown <;> simp [ht]

theorem monitorDepsOuter_eq_flat (env : Env) (options : Options)
    (net : Nat → ReqOutcome MonitorDependenciesResponse) :
    ∀ (scans : List (String × List ScanResult)) (k : Nat),
    monitorDepsOuter env options net scans k =
      monitorRunFlat env options net (flattenEntries scans) k := by
  intro scans
  induction scans with
  | nil => intro k; rfl
  | cons pr rest ih =>
      intro k
      obtain ⟨path, scanResults⟩ := pr
      have hflat : flattenEntries ((path, scanResults) :: rest) =
          scanResults.map (fun sr => (path, sr)) ++ flattenEntries rest := by
        simp [flattenEntries]
      rw [hflat, monitorRunFlat_append]
      simp only [monitorDepsOuter, monitorDepsInner_eq_flat, ih]

theorem monitorRunFlat_nofatal (env : Env) (options : Options)
    (net : Nat → ReqOutcome MonitorDependenciesResponse) :
    ∀ (ps : List (String × ScanResult)) (k : Nat),
    (∀ j, j < ps.length → fatalOut (net (k + j)) = false) →
    monitorRunFlat env options net ps k =
      { submitted := ps.map (monPayloadOf env options)
        results := successesM net ps k
        errors := softErrorsM net ps k
        nextCall := k + ps.length
        thrown := none } := by
  intro ps
  induction ps with
  | nil => intro k _; simp [monitorRunFlat, successesM, softErrorsM]
  | cons pr rest ih =>
      intro k h
      obtain ⟨path, scanResult⟩ := pr
      have h0 : fatalOut (net k) = false := by
        have := h 0 (by simp)
        simpa using this
      have h' : ∀ j, j < rest.length → fatalOut (net (k + 1 + j)) = false := by
        intro j hj
        have := h (j + 1) (by simpa using Nat.succ_lt_succ hj)
        simpa [Nat.add_assoc, Nat.add_comm 1 j] using this
      cases hnk : net k with
      | ok response =>
          simp [monitorRunFlat, successesM, softErrorsM, hnk, ih _ h',
            Nat.add_assoc, Nat.add_comm 1 rest.length]
      | err code message =>
          have h4 : is4xx code = false := by
            rw [hnk] at h0; simpa [fatalOut] using h0
          simp [monitorRunFlat, successesM, softErrorsM, hnk, h4, ih _ h',
            Nat.add_assoc, Nat.add_comm 1 rest.length]

theorem monitorRunFlat_fatal (env : Env) (options : Options)
    (net : Nat → ReqOutcome MonitorDependenciesResponse) :
    ∀ (ps : List (String × ScanResult)) (k i : Nat) (c : Option Int) (m : String),
    i < ps.length → net (k + i) = .err c m → is4xx c = true →
    (∀ j, j < i → fatalOut (net (k + j)) = false) →
    monitorRunFlat env options net ps k =
      { submitted := (ps.take (i + 1)).map (monPayloadOf env options)
        results := successesM net (ps.take i) k
        errors := softErrorsM net (ps.take i) k
        nextCall := k + i + 1
        thrown := some m } := by
  intro ps
  induction ps with
  | nil => intro k i c m hi; exact absurd hi (by simp)
  | cons pr rest ih =>
      intro k i c m hi hki h4 hb
      obtain ⟨path, scanResult⟩ := pr
      cases i with
      | zero =>
          simp only [Nat.add_zero] at hki
          simp [monitorRunFlat, successesM, softErrorsM, hki, h4]
      | succ i' =>
          have h0 : fatalOut (net k) = false := by
            have := hb 0 (Nat.succ_pos i')
            simpa using this
          have hki' : net (k + 1 + i') = .err c m := by
            rw [show k + 1 + i' = k + (i' + 1) by omega]
            exact hki
          have hb' : ∀ j, j < i' → fatalOut (net (k + 1 + j)) = false := by
            intro j hj
            have := hb (j + 1) (Nat.succ_lt_succ hj)
            simpa [show k + (j + 1) = k + 1 + j by omega] using this
          have hi' : i' < rest.length := by simpa using Nat.lt_of_succ_lt_succ hi
          cases hnk : net k with
          | ok response =>
              simp [monitorRunFlat, successesM, softErrorsM, hnk,
                ih (k + 1) i' c m hi' hki' h4 hb',
                show k + 1 + i' + 1 = k + (i' + 1) + 1 by omega]
          | err code message =>
              have h4' : is4xx code = false := by
                rw [hnk] at h0; simpa [fatalOut] using h0
              simp [monitorRunFlat, successesM, softErrorsM, hnk, h4',
                ih (k + 1) i' c m hi' hki' h4 hb',
                show k + 1 + i' + 1 = k + (i' + 1) + 1 by omega]

/-- C1: during test or monitor submission, a remote failure whose code is
in [400,500) makes the operation throw an error carrying the server
error's message; the recorded results and error entries are exactly
those of the (path, scan result) pairs before the failing one, and no
pair after it is even submitted. -/
theorem submission_fourxx_aborts
    (envT : Env) (netT : Nat → ReqOutcome TestResult)
    (scansT : List (String × List ScanResult)) (i : Nat) (c : Option Int) (m : String)
    (envM : Env) (optionsM : Options)
    (netM : Nat → ReqOutcome MonitorDependenciesResponse)
    (scansM : List (String × List ScanResult)) (i' : Nat) (c' : Option Int) (m' : String)
    (hiT : i < (flattenEntries scansT).length)
    (hnT : netT i = ReqOutcome.err c m) (h4T : is4xx c = true)
    (hbT : ∀ j, j < i → fatalOut (netT j) = false)
    (hiM : i' < (flattenEntries scansM).length)
    (hnM : netM i' = ReqOutcome.err c' m') (h4M : is4xx c' = true)
    (hbM : ∀ j, j < i' → fatalOut (netM j) = false) :
    ((testDependencies envT netT scansT).thrown = some m ∧
     (testDependencies envT netT scansT).submitted.length = i + 1 ∧
     (testDependencies envT netT scansT).results =
       successesT netT ((flattenEntries scansT).take i) 0 ∧
     (testDependencies envT netT scansT).errors =
       softErrorsT netT ((flattenEntries scansT).take i) 0) ∧
    ((monitorDependencies envM optionsM netM scansM).thrown = some m' ∧
     (monitorDependencies envM optionsM netM scansM).submitted.length = i' + 1 ∧
     (monitorDependencies envM optionsM netM scansM).results =
       successesM netM ((flattenEntries scansM).take i') 0 ∧
     (monitorDependencies envM optionsM netM scansM).errors =
       softErrorsM netM ((flattenEntries scansM).take i') 0) := by
  have hT := testRunFlat_fatal envT netT (flattenEntries scansT) 0 i c m hiT
    (by simpa using hnT) h4T (by intro j hj; simpa using hbT j hj)
  have hM := monitorRunFlat_fatal envM optionsM netM (flattenEntries scansM) 0 i' c' m'
    hiM (by simpa using hnM) h4M (by intro j hj; simpa using hbM j hj)
  constructor
  · rw [testDependencies, testDepsOuter_eq_flat, hT]
    refine ⟨rfl, ?_, rfl, rfl⟩
    simp [List.length_take, Nat.min_eq_left (by omega : i + 1 ≤ (flattenEntries scansT).length)]
  · rw [monitorDependencies, monitorDepsOuter_eq_flat, hM]
    refine ⟨rfl, ?_, rfl, rfl⟩
    simp [List.length_take, Nat.min_eq_left (by omega : i' + 1 ≤ (flattenEntries scansM).length)]

/-- A sample scan result used by concrete witnesses: one fact of the
excluded OS-release type and one ordinary fact. -/
def sampleScan : ScanResult :=
  { identity := { type := "cpp" }
    facts := [{ type := "imageOsReleasePrettyName", data := "Alpine" },
              { type := "depGraph", data := "g" }] }

/-- Witness for C1: two pairs; the first test call succeeds, the second
fails with 403 and its message is thrown; the single monitor call fails
with 401 and its message is thrown. -/
theorem submission_fourxx_aborts_witness :
    (testDependencies {}
        (fun k => if k = 0 then ReqOutcome.ok {} else ReqOutcome.err (some 403) "Forbidden")
        [("a", [sampleScan]), ("b", [sampleScan])]).thrown = some "Forbidden" ∧
    (monitorDependencies {} {}
        (fun _ => ReqOutcome.err (some 401) "Unauthorized")
        [("a", [sampleScan])]).thrown = some "Unauthorized" :=
  ⟨(submission_fourxx_aborts {}
      (fun k => if k = 0 then ReqOutcome.ok {} else ReqOutcome.err (some 403) "Forbidden")
      [("a", [sampleScan]), ("b", [sampleScan])] 1 (some 403) "Forbidden"
      {} {} (fun _ => ReqOutcome.err (some 401) "Unauthorized")
      [("a", [sampleScan])] 0 (some 401) "Unauthorized"
      (by decide) (by decide) (by decide)
      (by intro j hj; interval_cases j; decide)
      (by decide) (by decide) (by decide)
      (by intro j hj; exact absurd hj (by omega))).1.1,
   (submission_fourxx_aborts {}
      (fun k => if k = 0 then ReqOutcome.ok {} else ReqOutcome.err (some 403) "Forbidden")
      [("a", [sampleScan]), ("b", [sampleScan])] 1 (some 403) "Forbidden"
      {} {} (fun _ => ReqOutcome.err (some 401) "Unauthorized")
      [("a", [sampleScan])] 0 (some 401) "Unauthorized"
      (by decide) (by decide) (by decide)
      (by intro j hj; interval_cases j; decide)
      (by decide) (by decide) (by decide)
      (by intro j hj; exact absurd hj (by omega))).2.1⟩

/-- C2: when no remote call of the run fails with a 4xx code, test and
monitor submission never throw, submit every (path, scan result) pair,
return the successful responses in call order, and record exactly one
path-keyed (and, for monitor, scan-result-carrying) error entry per
failing call, in call order. -/
theorem submission_soft_failure_continues
    (envT : Env) (netT : Nat → ReqOutcome TestResult)
    (scansT : List (String × List ScanResult))
    (envM : Env) (optionsM : Options)
    (netM : Nat → ReqOutcome MonitorDependenciesResponse)
    (scansM : List (String × List ScanResult))
    (hT : ∀ j, j < (flattenEntries scansT).length → fatalOut (netT j) = false)
    (hM : ∀ j, j < (flattenEntries scansM).length → fatalOut (netM j) = false) :
    ((testDependencies envT netT scansT).thrown = none ∧
     (testDependencies envT netT scansT).submitted.length =
       (flattenEntries scansT).length ∧
     (testDependencies envT netT scansT).results =
       successesT netT (flattenEntries scansT) 0 ∧
     (testDependencies envT netT scansT).errors =
       softErrorsT netT (flattenEntries scansT) 0) ∧
    ((monitorDependencies envM optionsM netM scansM).thrown = none ∧
     (monitorDependencies envM optionsM netM scansM).submitted.length =
       (flattenEntries scansM).length ∧
     (monitorDependencies envM optionsM netM scansM).results =
       successesM netM (flattenEntries scansM) 0 ∧
     (monitorDependencies envM optionsM netM scansM).errors =
       softErrorsM netM (flattenEntries scansM) 0) := by
  have hTT := testRunFlat_nofatal envT netT (flattenEntries scansT) 0
    (by intro j hj; simpa using hT j hj)
  have hMM := monitorRunFlat_nofatal envM optionsM netM (flattenEntries scansM) 0
    (by intro j hj; simpa using hM j hj)
  constructor
  · rw [testDependencies, testDepsOuter_eq_flat, hTT]
    exact ⟨rfl, by simp, rfl, rfl⟩
  · rw [monitorDependencies, monitorDepsOuter_eq_flat, hMM]
    exact ⟨rfl, by simp, rfl, rfl⟩

/-- Witness for C2: for both operations, a 500 failure on the first of
two calls leaves one path-keyed error entry and the second call's
success still recorded. -/
theorem submission_soft_failure_continues_witness :
    ((testDependencies {}
        (fun k => if k = 0 then ReqOutcome.err (some 500) "boom" else ReqOutcome.ok {})
        [("a", [sampleScan, sampleScan])]).errors =
      ["Could not test dependencies in a"]) ∧
    ((testDependencies {}
        (fun k => if k = 0 then ReqOutcome.err (some 500) "boom" else ReqOutcome.ok {})
        [("a", [sampleScan, sampleScan])]).results = [{}]) ∧
    ((monitorDependencies {} {}
        (fun k => if k = 0 then ReqOutcome.err none "socket hang up" else ReqOutcome.ok {})
        [("a", [sampleScan]), ("b", [sampleScan])]).errors =
      [{ error := "Could not monitor dependencies in a", path := "a"
         scanResult := filterScanFacts sampleScan }]) := by
  have h := submission_soft_failure_continues {}
    (fun k => if k = 0 then ReqOutcome.err (some 500) "boom" else ReqOutcome.ok {})
    [("a", [sampleScan, sampleScan])]
    {} {}
    (fun k => if k = 0 then ReqOutcome.err none "socket hang up" else ReqOutcome.ok {})
    [("a", [sampleScan]), ("b", [sampleScan])]
    (by intro j hj; have hj2 : j < 2 := by simpa [flattenEntries, sampleScan] using hj
        interval_cases j <;> decide)
    (by intro j hj; have hj2 : j < 2 := by simpa [flattenEntries, sampleScan] using hj
        interval_cases j <;> decide)
  exact ⟨h.1.2.2.2.trans (by decide), h.1.2.2.1.trans (by decide),
    h.2.2.2.2.trans (by decide)⟩

/-- C3: every request body submitted to the monitor endpoint carries a
scan result with no fact of the excluded OS-release type
`imageOsReleasePrettyName`, and it is some input pair's scan result with
its facts replaced by exactly the other-typed facts, verbatim and in
order, all other fields unchanged. -/
theorem monitor_fact_filtering (env : Env) (options : Options)
    (net : Nat → ReqOutcome MonitorDependenciesResponse)
    (scans : List (String × List ScanResult)) (pl : MonitorPayload)
    (hmem : pl ∈ (monitorDependencies env options net scans).submitted) :
    (∀ f ∈ pl.body.scanResult.facts, f.type ≠ "imageOsReleasePrettyName") ∧
    ∃ pr ∈ flattenEntries scans,
      pl.body.scanResult.facts =
        pr.2.facts.filter (fun fact => fact.type != "imageOsReleasePrettyName") ∧
      pl.body.scanResult.identity = pr.2.identity ∧
      pl.body.scanResult.name = pr.2.name ∧
      pl.body.scanResult.policy = pr.2.policy ∧
      pl.body.scanResult.target = pr.2.target := by
  have key : ∀ (ps : List (String × ScanResult)) (k : Nat),
      pl ∈ (monitorRunFlat env options net ps k).submitted →
      ∃ pr ∈ ps, pl = monPayloadOf env options pr := by
    intro ps
    induction ps with
    | nil => intro k h; simp [monitorRunFlat] at h
    | cons pr rest ih =>
        intro k h
        obtain ⟨path, scanResult⟩ := pr
        cases hnk : net k with
        | ok response =>
            rw [monitorRunFlat] at h
            simp only [hnk] at h
            rcases List.mem_cons.mp h with h1 | h1
            · exact ⟨(path, scanResult), List.mem_cons_self _ _, by rw [h1]⟩
            · obtain ⟨q, hq, hql⟩ := ih (k + 1) h1
              exact ⟨q, List.mem_cons_of_mem _ hq, hql⟩
        | err code message =>
            rw [monitorRunFlat] at h
            simp only [hnk] at h
            by_cases h4 : is4xx code = true
            · simp only [h4, if_true] at h
              simp only [List.mem_singleton] at h
              exact ⟨(path, scanResult), List.mem_cons_self _ _, by rw [h]⟩
            · simp only [Bool.not_eq_true] at h4
              simp only [h4, Bool.false_eq_true, if_false] at h
              rcases List.mem_cons.mp h with h1 | h1
              · exact ⟨(path, scanResult), List.mem_cons_self _ _, by rw [h1]⟩
              · obtain ⟨q, hq, hql⟩ := ih (k + 1) h1
                exact ⟨q, List.mem_cons_of_mem _ hq, hql⟩
  have hmem' : pl ∈ (monitorRunFlat env options net (flattenEntries scans) 0).submitted := by
    have hund : (monitorDependencies env options net scans).submitted =
        (monitorRunFlat env options net (flattenEntries scans) 0).submitted := by
      rw [monitorDependencies, monitorDepsOuter_eq_flat]
      cases ht : (monitorRunFlat env options net (flattenEntries scans) 0).thrown <;>
        simp [ht]
    rwa [hund] at hmem
  obtain ⟨pr, hpr, hpl⟩ := key (flattenEntries scans) 0 hmem'
  have hbody : pl.body.scanResult = filterScanFacts pr.2 := by rw [hpl]; rfl
  constructor
  · intro f hf
    rw [hbody] at hf
    have := List.of_mem_filter hf
    simpa using this
  · exact ⟨pr, hpr, by rw [hbody]; rfl, by rw [hbody]; rfl, by rw [hbody]; rfl,
      by rw [hbody]; rfl, by rw [hbody]; rfl⟩

/-- Witness for C3: a concrete run submits a body whose facts list has
lost the OS-release fact and kept the ordinary fact. -/
theorem monitor_fact_filtering_witness :
    (monPayloadOf {} {} ("a", sampleScan)) ∈
      (monitorDependencies {} {} (fun _ => ReqOutcome.ok {})
        [("a", [sampleScan])]).submitted ∧
    (∀ f ∈ (monPayloadOf {} {} ("a", sampleScan)).body.scanResult.facts,
      f.type ≠ "imageOsReleasePrettyName") :=
  ⟨by decide,
   (monitor_fact_filtering {} {} (fun _ => ReqOutcome.ok {}) [("a", [sampleScan])]
      (monPayloadOf {} {} ("a", sampleScan)) (by decide)).1⟩

/-- C7 counterexample: a test run whose only remote call fails with 403
throws, and the progress indicator has not been cleared when it does:
the claim that the indicator is stopped even when the operation raises
is false on the code. -/
theorem spinner_not_cleared_on_fourxx_counterexample :
    (testDependencies {} (fun _ => ReqOutcome.err (some 403) "Forbidden")
        [("a", [sampleScan])]).thrown = some "Forbidden" ∧
    (testDependencies {} (fun _ => ReqOutcome.err (some 403) "Forbidden")
        [("a", [sampleScan])]).spinnerCleared = false := by
  decide

/-- C7 (amended): the progress indicator is cleared exactly on normal
completion of a test or monitor submission run; on the fatal 4xx path
the thrown error propagates past the final clearing call, leaving the
indicator running. -/
theorem spinner_cleared_iff_no_throw
    (envT : Env) (netT : Nat → ReqOutcome TestResult)
    (scansT : List (String × List ScanResult))
    (envM : Env) (optionsM : Options)
    (netM : Nat → ReqOutcome MonitorDependenciesResponse)
    (scansM : List (String × List ScanResult)) :
    ((testDependencies envT netT scansT).spinnerCleared = true ↔
      (testDependencies envT netT scansT).thrown = none) ∧
    ((monitorDependencies envM optionsM netM scansM).spinnerCleared = true ↔
      (monitorDependencies envM optionsM netM scansM).thrown = none) := by
  constructor
  · rw [testDependencies]
    cases ht : (testDepsOuter envT netT scansT 0).thrown <;> simp [ht]
  · rw [monitorDependencies]
    cases ht : (monitorDepsOuter envM optionsM netM scansM 0).thrown <;> simp [ht]

/-- `SEPARATOR` (`ecosystems.ts` line 19). -/
def SEPARATOR : String :=
  "\n-------------------------------------------------------\n"

/-- The fields of the `MonitorError` wrapper (from `./errors`, outside
this slice) that `getFormattedMonitorOutput` reads back when rendering a
failure entry: `userMessage` (truthiness-checked) and `message`. -/
structure MonitorErrorShape where
  userMessage : Option String := none
  message : String := ""
deriving DecidableEq, Repr, Inhabited

/-- A collected report entry, `GoodResult | BadResult` (from
`../cli/commands/monitor/types`, outside this slice), as read and
written by `getFormattedMonitorOutput`: a success carries the rendered
data string, the path and a project name; a failure carries an optional
error wrapper (`res.data` is truthiness-checked) and the path. -/
inductive MonResultEntry where
  | good (data : String) (path : String) (projectName : String)
  | bad (data : Option MonitorErrorShape) (path : String)
deriving DecidableEq, Repr

/-- `res.ok` of a collected entry. -/
def isGoodEntry : MonResultEntry → Bool
  | .good .. => true
  | .bad .. => false

/-- The per-entry rendering of `getFormattedMonitorOutput`
(`ecosystems.ts` lines 331-346): a success renders as its data string; a
failure renders as a highlighted path header plus the wrapper's
user-facing message if truthy, else its raw message, else a fallback
string. `boldRed` and `boldWhite` stand for the `chalk` stylers. -/
def renderEntry (boldRed boldWhite : String → String) : MonResultEntry → String
  | .good data _ _ => data
  | .bad data path =>
    let errorMessage :=
      match data with
      | some e =>
        match e.userMessage with
        | some u => if u ≠ "" then boldRed u else e.message
        | none => e.message
      | none => "Unknown error occurred."
    boldWhite ("\nMonitoring " ++ path ++ "...\n\n") ++ errorMessage

/-- The joined report string of `getFormattedMonitorOutput`
(`ecosystems.ts` lines 330-347): entries rendered and joined with a
newline plus the separator. -/
def renderReport (boldRed boldWhite : String → String)
    (entries : List MonResultEntry) : String :=
  String.intercalate ("\n" ++ SEPARATOR) (entries.map (renderEntry boldRed boldWhite))

/-- The success entry pushed for one monitor result (`ecosystems.ts`
lines 302-321): data is the formatted monitor output (the external
`formatMonitorOutput`, passed as `fmt`, applied to the scan type, the
result, the options, the response's project name and the external
extra-project count), the path is the result's path and the recorded
project name is the server-assigned id. -/
def goodEntryOf (fmt : String → EcosystemMonitorResult → Options → String → Nat → String)
    (extraCount : String → Options → Nat) (options : Options)
    (monitorResult : EcosystemMonitorResult) : MonResultEntry :=
  .good
    (fmt monitorResult.scanResult.identity.type monitorResult options
      monitorResult.projectName (extraCount monitorResult.path options))
    monitorResult.path monitorResult.id

/-- The failure entry pushed for one monitor error (`ecosystems.ts`
lines 322-328): a `MonitorError` wrapper built from the fixed code 500
and the error payload (the external constructor is passed as
`mkMonitorError`), tagged with the error's path. -/
def badEntryOf (mkMonitorError : Nat → EcosystemMonitorError → MonitorErrorShape)
    (monitorError : EcosystemMonitorError) : MonResultEntry :=
  .bad (some (mkMonitorError 500 monitorError)) monitorError.path

/-- `getFormattedMonitorOutput` (`ecosystems.ts` lines 296-354): append a
success entry per monitor result, then a failure entry per monitor
error, onto the caller-supplied results array (returned as the first
component, modelling the in-place pushes); join every entry into one
report; return it if every entry is a success, otherwise throw an error
whose message is that same report. -/
def getFormattedMonitorOutput
    (fmt : String → EcosystemMonitorResult → Options → String → Nat → String)
    (extraCount : String → Options → Nat)
    (mkMonitorError : Nat → EcosystemMonitorError → MonitorErrorShape)
    (boldRed boldWhite : String → String)
    (results : List MonResultEntry)
    (monitorResults : List EcosystemMonitorResult)
    (errors : List EcosystemMonitorError)
    (options : Options) : List MonResultEntry × Except String String :=
  let results := results ++ monitorResults.map (goodEntryOf fmt extraCount options)
  let results := results ++ errors.map (badEntryOf mkMonitorError)
  let outputString := renderReport boldRed boldWhite results
  if results.all isGoodEntry then
    (results, Except.ok outputString)
  else
    (results, Except.error outputString)

theorem getFormattedMonitorOutput_fst
    (fmt : String → EcosystemMonitorResult → Options → String → Nat → String)
    (extraCount : String → Options → Nat)
    (mkMonitorError : Nat → EcosystemMonitorError → MonitorErrorShape)
    (boldRed boldWhite : String → String)
    (results : List MonResultEntry)
    (monitorResults : List EcosystemMonitorResult)
    (errors : List EcosystemMonitorError)
    (options : Options) :
    (getFormattedMonitorOutput fmt extraCount mkMonitorError boldRed boldWhite
        results monitorResults errors options).1 =
      results ++ monitorResults.map (goodEntryOf fmt extraCount options) ++
        errors.map (badEntryOf mkMonitorError) := by
  by_cases hx : (results ++ monitorResults.map (goodEntryOf fmt extraCount options) ++
      errors.map (badEntryOf mkMonitorError)).all isGoodEntry = true <;>
    simp only [getFormattedMonitorOutput, hx, if_true, Bool.false_eq_true, if_false]

/-- C6: if every collected entry is a success the formatter returns the
joined report without raising; if at least one entry is a failure it
raises an error whose message is exactly that same entire joined report
over all entries, successes included. -/
theorem formatted_monitor_output_ok_or_raises
    (fmt : String → EcosystemMonitorResult → Options → String → Nat → String)
    (extraCount : String → Options → Nat)
    (mkMonitorError : Nat → EcosystemMonitorError → MonitorErrorShape)
    (boldRed boldWhite : String → String)
    (results : List MonResultEntry)
    (monitorResults : List EcosystemMonitorResult)
    (errors : List EcosystemMonitorError)
    (options : Options) :
    ((∀ e ∈ (getFormattedMonitorOutput fmt extraCount mkMonitorError boldRed
        boldWhite results monitorResults errors options).1, isGoodEntry e = true) →
      (getFormattedMonitorOutput fmt extraCount mkMonitorError boldRed boldWhite
        results monitorResults errors options).2 =
        Except.ok (renderReport boldRed boldWhite
          (getFormattedMonitorOutput fmt extraCount mkMonitorError boldRed
            boldWhite results monitorResults errors options).1)) ∧
    ((∃ e ∈ (getFormattedMonitorOutput fmt extraCount mkMonitorError boldRed
        boldWhite results monitorResults errors options).1, isGoodEntry e = false) →
      (getFormattedMonitorOutput fmt extraCount mkMonitorError boldRed boldWhite
        results monitorResults errors options).2 =
        Except.error (renderReport boldRed boldWhite
          (getFormattedMonitorOutput fmt extraCount mkMonitorError boldRed
            boldWhite results monitorResults errors options).1)) := by
  have hfst := getFormattedMonitorOutput_fst fmt extraCount mkMonitorError boldRed
    boldWhite results monitorResults errors options
  constructor
  · intro hall
    have h : (results ++ monitorResults.map (goodEntryOf fmt extraCount options) ++
        errors.map (badEntryOf mkMonitorError)).all isGoodEntry = true := by
      rw [List.all_eq_true]
      intro e he
      exact hall e (by rw [hfst]; exact he)
    simp only [getFormattedMonitorOutput, h, if_true]
  · intro hex
    obtain ⟨e, he, hbad⟩ := hex
    rw [hfst] at he
    have h : (results ++ monitorResults.map (goodEntryOf fmt extraCount options) ++
        errors.map (badEntryOf mkMonitorError)).all isGoodEntry = false := by
      rw [Bool.eq_false_iff]
      intro hcon
      rw [List.all_eq_true] at hcon
      exact absurd (hcon e he) (by rw [hbad]; exact Bool.false_ne_true)
    simp only [getFormattedMonitorOutput, h, Bool.false_eq_true, if_false]

/-- Witness for C6: with one successful monitor result and no errors the
formatter returns the report; with one error among the entries it
raises, and the raised message is the full report. -/
theorem formatted_monitor_output_ok_or_raises_witness :
    ((getFormattedMonitorOutput (fun _ _ _ _ _ => "OK") (fun _ _ => 0)
        (fun _ _ => { userMessage := some "bad", message := "m" })
        (fun s => s) (fun s => s) []
        [{ scanResult := sampleScan }] [] {}).2 =
      Except.ok (renderReport (fun s => s) (fun s => s)
        (getFormattedMonitorOutput (fun _ _ _ _ _ => "OK") (fun _ _ => 0)
          (fun _ _ => { userMessage := some "bad", message := "m" })
          (fun s => s) (fun s => s) []
          [{ scanResult := sampleScan }] [] {}).1)) ∧
    ((getFormattedMonitorOutput (fun _ _ _ _ _ => "OK") (fun _ _ => 0)
        (fun _ _ => { userMessage := some "bad", message := "m" })
        (fun s => s) (fun s => s) []
        [{ scanResult := sampleScan }]
        [{ error := "boom", path := "a", scanResult := sampleScan }] {}).2 =
      Except.error (renderReport (fun s => s) (fun s => s)
        (getFormattedMonitorOutput (fun _ _ _ _ _ => "OK") (fun _ _ => 0)
          (fun _ _ => { userMessage := some "bad", message := "m" })
          (fun s => s) (fun s => s) []
          [{ scanResult := sampleScan }]
          [{ error := "boom", path := "a", scanResult := sampleScan }] {}).1)) :=
  ⟨(formatted_monitor_output_ok_or_raises (fun _ _ _ _ _ => "OK") (fun _ _ => 0)
      (fun _ _ => { userMessage := some "bad", message := "m" })
      (fun s => s) (fun s => s) [] [{ scanResult := sampleScan }] [] {}).1
    (by decide),
   (formatted_monitor_output_ok_or_raises (fun _ _ _ _ _ => "OK") (fun _ _ => 0)
      (fun _ _ => { userMessage := some "bad", message := "m" })
      (fun s => s) (fun s => s) [] [{ scanResult := sampleScan }]
      [{ error := "boom", path := "a", scanResult := sampleScan }] {}).2
    (by decide)⟩

/-- C10: the formatter returns the caller-supplied results list extended
in place: first its previous entries, then one success entry per monitor
result in order, then one failure entry per monitor error in order —
so every monitor success precedes every monitor failure in the rendered
report, whatever order the submissions originally finished in. -/
theorem formatted_monitor_output_append_order
    (fmt : String → EcosystemMonitorResult → Options → String → Nat → String)
    (extraCount : String → Options → Nat)
    (mkMonitorError : Nat → EcosystemMonitorError → MonitorErrorShape)
    (boldRed boldWhite : String → String)
    (results : List MonResultEntry)
    (monitorResults : List EcosystemMonitorResult)
    (errors : List EcosystemMonitorError)
    (options : Options) :
    (getFormattedMonitorOutput fmt extraCount mkMonitorError boldRed boldWhite
        results monitorResults errors options).1 =
      results ++ monitorResults.map (goodEntryOf fmt extraCount options) ++
        errors.map (badEntryOf mkMonitorError) ∧
    (∀ e ∈ monitorResults.map (goodEntryOf fmt extraCount options),
      isGoodEntry e = true) ∧
    (∀ e ∈ errors.map (badEntryOf mkMonitorError), isGoodEntry e = false) := by
  refine ⟨getFormattedMonitorOutput_fst fmt extraCount mkMonitorError boldRed
    boldWhite results monitorResults errors options, ?_, ?_⟩
  · intro e he
    obtain ⟨x, _, rfl⟩ := List.mem_map.mp he
    rfl
  · intro e he
    obtain ⟨x, _, rfl⟩ := List.mem_map.mp he
    rfl

theorem filterScanFacts_idem (sr : ScanResult) :
    filterScanFacts (filterScanFacts sr) = filterScanFacts sr := by
  simp [filterScanFacts, List.filter_filter]

/-- The references (store indices) of every scan result held by a scans
map, in iteration order. -/
def allRefs (scans : List (String × List Nat)) : List Nat :=
  (scans.map Prod.snd).flatten

/-- Heap-explicit state of the `monitorDependencies` loops: the store of
`ScanResult` objects the scans map points into, and each pushed
result/error entry paired with the reference it captured. -/
structure MonitorStoreStep where
  store : List ScanResult
  results : List (EcosystemMonitorResult × Nat) := []
  errors : List (EcosystemMonitorError × Nat) := []
  nextCall : Nat := 0
  thrown : Option String := none
deriving DecidableEq, Repr

/-- Heap-explicit embedding of the inner loop of `monitorDependencies`
(`ecosystems.ts` lines 251-290), used to state the aliasing behaviour:
the scans map holds references (store indices) to `ScanResult` objects;
the facts reassignment on lines 257-259 writes the filtered facts back
through the shared reference, so the store entry itself is replaced by
the filtered object and every later read through any alias sees it. The
result/error entries record, next to the pushed value, the reference
they captured. Request payloads are covered by the value-level
embedding and omitted here. -/
def monitorDepsInnerStore (net : Nat → ReqOutcome MonitorDependenciesResponse)
    (path : String) : List Nat → Nat → List ScanResult → MonitorStoreStep
  | [], k, store => { store := store, nextCall := k }
  | r :: rest, k, store =>
    let scanResult := filterScanFacts (store.getD r default)
    let store := store.set r scanResult
    match net k with
    | .ok response =>
      let s := monitorDepsInnerStore net path rest (k + 1) store
      { s with results :=
          ({ toMonitorDependenciesResponse := { response with path := path }
             scanResult := scanResult }, r) :: s.results }
    | .err code message =>
      if is4xx code then
        { store := store, nextCall := k + 1, thrown := some message }
      else
        let s := monitorDepsInnerStore net path rest (k + 1) store
        { s with errors :=
            ({ error := "Could not monitor dependencies in " ++ path
               path := path
               scanResult := scanResult }, r) :: s.errors }

/-- Heap-explicit embedding of the outer loop of `monitorDependencies`
(`ecosystems.ts` lines 249-291). -/
def monitorDepsOuterStore (net : Nat → ReqOutcome MonitorDependenciesResponse) :
    List (String × List Nat) → Nat → List ScanResult → MonitorStoreStep
  | [], k, store => { store := store, nextCall := k }
  | (path, refs) :: rest, k, store =>
    let s := monitorDepsInnerStore net path refs k store
    match s.thrown with
    | some _ => s
    | none =>
      let s2 := monitorDepsOuterStore net rest s.nextCall s.store
      { store := s2.store
        results := s.results ++ s2.results
        errors := s.errors ++ s2.errors
        nextCall := s2.nextCall
        thrown := s2.thrown }

/-- Heap-explicit embedding of `monitorDependencies` (`ecosystems.ts`
lines 241-294) over a scans map of references into a store. -/
def monitorDependenciesStore (net : Nat → ReqOutcome MonitorDependenciesResponse)
    (scans : List (String × List Nat)) (store : List ScanResult) :
    MonitorStoreStep :=
  monitorDepsOuterStore net scans 0 store

theorem innerStore_length (net : Nat → ReqOutcome MonitorDependenciesResponse)
    (path : String) : ∀ (refs : List Nat) (k : Nat) (store : List ScanResult),
    (monitorDepsInnerStore net path refs k store).store.length = store.length := by
  intro refs
  induction refs with
  | nil => intro k store; rfl
  | cons r rest ih =>
      intro k store
      cases hnk : net k with
      | ok response => simp [monitorDepsInnerStore, hnk, ih, List.length_set]
      | err code message =>
          by_cases h4 : is4xx code = true
          · simp [monitorDepsInnerStore, hnk, h4, List.length_set]
          · simp only [Bool.not_eq_true] at h4
            simp [monitorDepsInnerStore, hnk, h4, ih, List.length_set]

theorem innerStore_get (net : Nat → ReqOutcome MonitorDependenciesResponse)
    (path : String) : ∀ (refs : List Nat) (k : Nat) (store : List ScanResult),
    (monitorDepsInnerStore net path refs k store).thrown = none →
    ∀ q, q < store.length →
    (monitorDepsInnerStore net path refs k store).store[q]? =
      if q ∈ refs then some (filterScanFacts (store.getD q default))
      else store[q]? := by
  intro refs
  induction refs with
  | nil =>
      intro k store _ q _
      simp [monitorDepsInnerStore]
  | cons r rest ih =>
      intro k store hthr q hq
      have hq1 : q < (store.set r (filterScanFacts (store.getD r default))).length := by
        simpa [List.length_set] using hq
      have step : ∀ (s : MonitorStoreStep),
          s = monitorDepsInnerStore net path rest (k + 1)
                (store.set r (filterScanFacts (store.getD r default))) →
          s.thrown = none →
          s.store[q]? =
            if q ∈ r :: rest then some (filterScanFacts (store.getD q default))
            else store[q]? := by
        intro s hs hsthr
        have hIH := ih (k + 1) (store.set r (filterScanFacts (store.getD r default)))
          (hs ▸ hsthr) q hq1
        rw [hs, hIH]
        by_cases hqr : q = r
        · subst hqr
          have hset : (store.set q (filterScanFacts (store.getD q default)))[q]? =
              some (filterScanFacts (store.getD q default)) :=
            List.getElem?_set_self hq
          have hgetD : (store.set q (filterScanFacts (store.getD q default))).getD
              q default = filterScanFacts (store.getD q default) := by
            rw [List.getD_eq_getElem?_getD, hset]; rfl
          by_cases hqrest : q ∈ rest
          · rw [if_pos hqrest, if_pos (List.mem_cons.mpr (Or.inr hqrest)), hgetD,
              filterScanFacts_idem]
          · rw [if_neg hqrest, if_pos (List.mem_cons_self q rest), hset]
        · have hset : (store.set r (filterScanFacts (store.getD r default)))[q]? =
              store[q]? := List.getElem?_set_ne (Ne.symm hqr)
          have hgetD : (store.set r (filterScanFacts (store.getD r default))).getD
              q default = store.getD q default := by
            rw [List.getD_eq_getElem?_getD, hset, List.getD_eq_getElem?_getD]
          by_cases hqrest : q ∈ rest
          · rw [if_pos hqrest, if_pos (List.mem_cons.mpr (Or.inr hqrest)), hgetD]
          · rw [if_neg hqrest,
              if_neg (by simp only [List.mem_cons]; rintro (h | h) <;> exact absurd h (by assumption)),
              hset]
      cases hnk : net k with
      | ok response =>
          have hthr' : (monitorDepsInnerStore net path rest (k + 1)
              (store.set r (filterScanFacts (store.getD r default)))).thrown = none := by
            simpa [monitorDepsInnerStore, hnk] using hthr
          have := step _ rfl hthr'
          simpa [monitorDepsInnerStore, hnk] using this
      | err code message =>
          by_cases h4 : is4xx code = true
          · exfalso
            simp [monitorDepsInnerStore, hnk, h4] at hthr
          · simp only [Bool.not_eq_true] at h4
            have hthr' : (monitorDepsInnerStore net path rest (k + 1)
                (store.set r (filterScanFacts (store.getD r default)))).thrown = none := by
              simpa [monitorDepsInnerStore, hnk, h4] using hthr
            have := step _ rfl hthr'
            simpa [monitorDepsInnerStore, hnk, h4] using this

theorem innerStore_entries (net : Nat → ReqOutcome MonitorDependenciesResponse)
    (path : String) : ∀ (refs : List Nat) (k : Nat) (store : List ScanResult),
    (monitorDepsInnerStore net path refs k store).thrown = none →
    (∀ r ∈ refs, r < store.length) →
    (∀ e ∈ (monitorDepsInnerStore net path refs k store).results,
      e.2 ∈ refs ∧ e.1.scanResult = filterScanFacts (store.getD e.2 default)) ∧
    (∀ e ∈ (monitorDepsInnerStore net path refs k store).errors,
      e.2 ∈ refs ∧ e.1.scanResult = filterScanFacts (store.getD e.2 default)) := by
  intro refs
  induction refs with
  | nil =>
      intro k store _ _
      constructor <;> intro e he <;> simp [monitorDepsInnerStore] at he
  | cons r rest ih =>
      intro k store hthr hvalid
      have hrlen : r < store.length := hvalid r (List.mem_cons_self r rest)
      have hvalid' : ∀ r' ∈ rest,
          r' < (store.set r (filterScanFacts (store.getD r default))).length := by
        intro r' hr'
        simpa [List.length_set] using hvalid r' (List.mem_cons_of_mem _ hr')
      have htrans : ∀ q,
          filterScanFacts ((store.set r (filterScanFacts (store.getD r default))).getD
            q default) = filterScanFacts (store.getD q default) := by
        intro q
        by_cases hqr : q = r
        · subst hqr
          have hset : (store.set q (filterScanFacts (store.getD q default)))[q]? =
              some (filterScanFacts (store.getD q default)) :=
            List.getElem?_set_self hrlen
          rw [List.getD_eq_getElem?_getD, hset]
          exact filterScanFacts_idem _
        · have hset : (store.set r (filterScanFacts (store.getD r default)))[q]? =
              store[q]? := List.getElem?_set_ne (Ne.symm hqr)
          rw [List.getD_eq_getElem?_getD, hset, ← List.getD_eq_getElem?_getD]
      cases hnk : net k with
      | ok response =>
          have hthr' : (monitorDepsInnerStore net path rest (k + 1)
              (store.set r (filterScanFacts (store.getD r default)))).thrown = none := by
            simpa [monitorDepsInnerStore, hnk] using hthr
          have hIH := ih (k + 1) _ hthr' hvalid'
          constructor
          · intro e he
            simp only [monitorDepsInnerStore, hnk] at he
            rcases List.mem_cons.mp he with h1 | h1
            · constructor
              · rw [h1]; exact List.mem_cons_self r rest
              · rw [h1]
            · obtain ⟨hm, hv⟩ := hIH.1 e h1
              exact ⟨List.mem_cons_of_mem _ hm, hv.trans (htrans e.2)⟩
          · intro e he
            simp only [monitorDepsInnerStore, hnk] at he
            obtain ⟨hm, hv⟩ := hIH.2 e he
            exact ⟨List.mem_cons_of_mem _ hm, hv.trans (htrans e.2)⟩
      | err code message =>
          by_cases h4 : is4xx code = true
          · exfalso
            simp [monitorDepsInnerStore, hnk, h4] at hthr
          · simp only [Bool.not_eq_true] at h4
            have hthr' : (monitorDepsInnerStore net path rest (k + 1)
                (store.set r (filterScanFacts (store.getD r default)))).thrown = none := by
              simpa [monitorDepsInnerStore, hnk, h4] using hthr
            have hIH := ih (k + 1) _ hthr' hvalid'
            constructor
            · intro e he
              simp only [monitorDepsInnerStore, hnk, h4, Bool.false_eq_true,
                if_false] at he
              obtain ⟨hm, hv⟩ := hIH.1 e he
              exact ⟨List.mem_cons_of_mem _ hm, hv.trans (htrans e.2)⟩
            · intro e he
              simp only [monitorDepsInnerStore, hnk, h4, Bool.false_eq_true,
                if_false] at he
              rcases List.mem_cons.mp he with h1 | h1
              · constructor
                · rw [h1]; exact List.mem_cons_self r rest
                · rw [h1]
              · obtain ⟨hm, hv⟩ := hIH.2 e h1
                exact ⟨List.mem_cons_of_mem _ hm, hv.trans (htrans e.2)⟩

theorem outerStore_length (net : Nat → ReqOutcome MonitorDependenciesResponse) :
    ∀ (scans : List (String × List Nat)) (k : Nat) (store : List ScanResult),
    (monitorDepsOuterStore net scans k store).store.length = store.length := by
  intro scans
  induction scans with
  | nil => intro k store; rfl
  | cons pr rest ih =>
      intro k store
      obtain ⟨path, refs⟩ := pr
      cases hs : (monitorDepsInnerStore net path refs k store).thrown with
      | some m =>
          simp only [monitorDepsOuterStore, hs]
          exact innerStore_length net path refs k store
      | none =>
          simp only [monitorDepsOuterStore, hs]
          rw [ih, innerStore_length]

theorem outerStore_get (net : Nat → ReqOutcome MonitorDependenciesResponse) :
    ∀ (scans : List (String × List Nat)) (k : Nat) (store : List ScanResult),
    (monitorDepsOuterStore net scans k store).thrown = none →
    ∀ q, q < store.length →
    (monitorDepsOuterStore net scans k store).store[q]? =
      if q ∈ allRefs scans then some (filterScanFacts (store.getD q default))
      else store[q]? := by
  intro scans
  induction scans with
  | nil =>
      intro k store _ q _
      simp [monitorDepsOuterStore, allRefs]
  | cons pr rest ih =>
      intro k store hthr q hq
      obtain ⟨path, refs⟩ := pr
      have hall : allRefs ((path, refs) :: rest) = refs ++ allRefs rest := by
        simp [allRefs]
      cases hs : (monitorDepsInnerStore net path refs k store).thrown with
      | some m =>
          exfalso
          simp [monitorDepsOuterStore, hs] at hthr
      | none =>
          have hthr2 : (monitorDepsOuterStore net rest
              (monitorDepsInnerStore net path refs k store).nextCall
              (monitorDepsInnerStore net path refs k store).store).thrown = none := by
            simpa [monitorDepsOuterStore, hs] using hthr
          have hinner := innerStore_get net path refs k store hs q hq
          have hq' : q < (monitorDepsInnerStore net path refs k store).store.length := by
            rw [innerStore_length]; exact hq
          have hIH := ih _ _ hthr2 q hq'
          simp only [monitorDepsOuterStore, hs]
          rw [hIH, hall]
          have hsgetD : (monitorDepsInnerStore net path refs k store).store.getD
              q default =
              (if q ∈ refs then filterScanFacts (store.getD q default)
               else store.getD q default) := by
            rw [List.getD_eq_getElem?_getD, hinner]
            by_cases hqrefs : q ∈ refs
            · rw [if_pos hqrefs, if_pos hqrefs]; rfl
            · rw [if_neg hqrefs, if_neg hqrefs, ← List.getD_eq_getElem?_getD]
          by_cases hqrest : q ∈ allRefs rest
          · rw [if_pos hqrest, if_pos (List.mem_append.mpr (Or.inr hqrest)), hsgetD]
            by_cases hqrefs : q ∈ refs
            · rw [if_pos hqrefs, filterScanFacts_idem]
            · rw [if_neg hqrefs]
          · rw [if_neg hqrest, hinner]
            by_cases hqrefs : q ∈ refs
            · rw [if_pos hqrefs, if_pos (List.mem_append.mpr (Or.inl hqrefs))]
            · rw [if_neg hqrefs,
                if_neg (by simp [List.mem_append, hqrefs, hqrest])]

theorem outerStore_entries (net : Nat → ReqOutcome MonitorDependenciesResponse) :
    ∀ (scans : List (String × List Nat)) (k : Nat) (store : List ScanResult),
    (monitorDepsOuterStore net scans k store).thrown = none →
    (∀ r ∈ allRefs scans, r < store.length) →
    (∀ e ∈ (monitorDepsOuterStore net scans k store).results,
      e.2 ∈ allRefs scans ∧
      e.1.scanResult = filterScanFacts (store.getD e.2 default)) ∧
    (∀ e ∈ (monitorDepsOuterStore net scans k store).errors,
      e.2 ∈ allRefs scans ∧
      e.1.scanResult = filterScanFacts (store.getD e.2 default)) := by
  intro scans
  induction scans with
  | nil =>
      intro k store _ _
      constructor <;> intro e he <;> simp [monitorDepsOuterStore] at he
  | cons pr rest ih =>
      intro k store hthr hvalid
      obtain ⟨path, refs⟩ := pr
      have hall : allRefs ((path, refs) :: rest) = refs ++ allRefs rest := by
        simp [allRefs]
      cases hs : (monitorDepsInnerStore net path refs k store).thrown with
      | some m =>
          exfalso
          simp [monitorDepsOuterStore, hs] at hthr
      | none =>
          have hthr2 : (monitorDepsOuterStore net rest
              (monitorDepsInnerStore net path refs k store).nextCall
              (monitorDepsInnerStore net path refs k store).store).thrown = none := by
            simpa [monitorDepsOuterStore, hs] using hthr
          have hvalidRefs : ∀ r ∈ refs, r < store.length := by
            intro r hr
            exact hvalid r (by rw [hall]; exact List.mem_append.mpr (Or.inl hr))
          have hvalid' : ∀ r ∈ allRefs rest,
              r < (monitorDepsInnerStore net path refs k store).store.length := by
            intro r hr
            rw [innerStore_length]
            exact hvalid r (by rw [hall]; exact List.mem_append.mpr (Or.inr hr))
          have hinnerE := innerStore_entries net path refs k store hs hvalidRefs
          have hIH := ih _ _ hthr2 hvalid'
          have htrans : ∀ q, q < store.length →
              filterScanFacts ((monitorDepsInnerStore net path refs k store).store.getD
                q default) = filterScanFacts (store.getD q default) := by
            intro q hq
            have hinner := innerStore_get net path refs k store hs q hq
            rw [List.getD_eq_getElem?_getD, hinner]
            by_cases hqrefs : q ∈ refs
            · rw [if_pos hqrefs]
              exact filterScanFacts_idem _
            · rw [if_neg hqrefs, ← List.getD_eq_getElem?_getD]
          constructor
          · intro e he
            simp only [monitorDepsOuterStore, hs] at he
            rcases List.mem_append.mp he with h1 | h1
            · obtain ⟨hm, hv⟩ := hinnerE.1 e h1
              exact ⟨by rw [hall]; exact List.mem_append.mpr (Or.inl hm), hv⟩
            · obtain ⟨hm, hv⟩ := hIH.1 e h1
              have hq : e.2 < store.length :=
                hvalid e.2 (by rw [hall]; exact List.mem_append.mpr (Or.inr hm))
              exact ⟨by rw [hall]; exact List.mem_append.mpr (Or.inr hm),
                hv.trans (htrans e.2 hq)⟩
          · intro e he
            simp only [monitorDepsOuterStore, hs] at he
            rcases List.mem_append.mp he with h1 | h1
            · obtain ⟨hm, hv⟩ := hinnerE.2 e h1
              exact ⟨by rw [hall]; exact List.mem_append.mpr (Or.inl hm), hv⟩
            · obtain ⟨hm, hv⟩ := hIH.2 e h1
              have hq : e.2 < store.length :=
                hvalid e.2 (by rw [hall]; exact List.mem_append.mpr (Or.inr hm))
              exact ⟨by rw [hall]; exact List.mem_append.mpr (Or.inr hm),
                hv.trans (htrans e.2 hq)⟩

/-- C9: after a monitor run that returns (no 4xx throw), every scan
result object referenced by the caller's scans map has had its `facts`
field reassigned in place to the filtered list, all other fields
unchanged; objects not referenced by the map are untouched; and the
scan result embedded in each returned result and error entry is that
same filtered object the caller's scans map still points to (the entry
holds the reference, and dereferencing it in the final store yields
exactly the embedded value). -/
theorem monitor_mutates_facts_in_place
    (net : Nat → ReqOutcome MonitorDependenciesResponse)
    (scans : List (String × List Nat)) (store : List ScanResult)
    (hthrown : (monitorDependenciesStore net scans store).thrown = none)
    (hvalid : ∀ r ∈ allRefs scans, r < store.length) :
    (∀ r ∈ allRefs scans,
      (monitorDependenciesStore net scans store).store[r]? =
        some { store.getD r default with
               facts := (store.getD r default).facts.filter
                 (fun fact => fact.type != "imageOsReleasePrettyName") }) ∧
    (∀ q, q ∉ allRefs scans →
      (monitorDependenciesStore net scans store).store[q]? = store[q]?) ∧
    (∀ e ∈ (monitorDependenciesStore net scans store).results,
      e.2 ∈ allRefs scans ∧
      (monitorDependenciesStore net scans store).store[e.2]? = some e.1.scanResult) ∧
    (∀ e ∈ (monitorDependenciesStore net scans store).errors,
      e.2 ∈ allRefs scans ∧
      (monitorDependenciesStore net scans store).store[e.2]? = some e.1.scanResult) := by
  have hget := outerStore_get net scans 0 store hthrown
  have hent := outerStore_entries net scans 0 store hthrown hvalid
  simp only [monitorDependenciesStore]
  refine ⟨?_, ?_, ?_, ?_⟩
  · intro r hr
    rw [hget r (hvalid r hr), if_pos hr]
    rfl
  · intro q hqn
    by_cases hq : q < store.length
    · rw [hget q hq, if_neg hqn]
    · push_neg at hq
      rw [List.getElem?_eq_none (by rw [outerStore_length]; exact hq),
        List.getElem?_eq_none hq]
  · intro e he
    obtain ⟨hm, hv⟩ := hent.1 e he
    exact ⟨hm, by rw [hget e.2 (hvalid e.2 hm), if_pos hm, hv]⟩
  · intro e he
    obtain ⟨hm, hv⟩ := hent.2 e he
    exact ⟨hm, by rw [hget e.2 (hvalid e.2 hm), if_pos hm, hv]⟩

/-- Witness for C9: one reference, one run; the final store holds the
sample scan result with only its facts filtered. -/
theorem monitor_mutates_facts_in_place_witness :
    (0 : Nat) ∈ allRefs [("a", [0])] ∧
    (monitorDependenciesStore (fun _ => ReqOutcome.ok {}) [("a", [0])]
        [sampleScan]).store[0]? =
      some { [sampleScan].getD 0 default with
             facts := ([sampleScan].getD 0 default).facts.filter
               (fun fact => fact.type != "imageOsReleasePrettyName") } :=
  ⟨by decide,
   (monitor_mutates_facts_in_place (fun _ => ReqOutcome.ok {}) [("a", [0])]
      [sampleScan] (by decide) (by decide)).1 0 (by decide)⟩

end Ecosystems
